import Mathlib

/-!
Shallow embedding of the numeric core of the SEIR-Interactive repository
(file `src/SEIR.py`): the explicit Euler integrator `euler`, the model
factory `SEIR_model`, and the simulation entry point `SEIR_simulation`.
Arithmetic is embedded over the rationals; Python `int(...)` truncation
toward zero is modelled by `pyInt`, and the `ZeroDivisionError` raised by
`(t1 - t0) / h` when `h = 0` is modelled by returning `none`.
-/

namespace SEIR

/-- Model of the Python builtin `int(q)` applied to the quotient in
`range(0, 1 + int((t1 - t0) / h))`: truncation toward zero. -/
def pyInt (q : ℚ) : ℤ := if 0 ≤ q then ⌊q⌋ else ⌈q⌉

/-- One iteration block of the loop body of `euler`, embedding
`for k in range(...): t = t0 + k * h; x = x + h * f(t, x); trajectory.append([t, x])`.
`eulerAux f t0 h k x n` is the list of pairs appended during iterations
`k, k+1, ..., k+n-1` when the state at the start of iteration `k` is `x`. -/
def eulerAux {α : Type} [Add α] [SMul ℚ α] (f : ℚ → α → α) (t0 h : ℚ) :
    ℕ → α → ℕ → List (ℚ × α)
  | _, _, 0 => []
  | k, x, n + 1 =>
    let t := t0 + (k : ℚ) * h
    let x1 := x + h • f t x
    (t, x1) :: eulerAux f t0 h (k + 1) x1 n

/-- Embedding of `euler(f, t0, x0, t1, h)` from `src/SEIR.py`: the trajectory
starts with `[t0, x0]` and the loop runs for `k in range(0, 1 + int((t1 - t0) / h))`.
Division by a zero step raises `ZeroDivisionError` in Python, modelled by `none`. -/
def euler {α : Type} [Add α] [SMul ℚ α] (f : ℚ → α → α) (t0 : ℚ) (x0 : α)
    (t1 h : ℚ) : Option (List (ℚ × α)) :=
  if h = 0 then none
  else some ((t0, x0) :: eulerAux f t0 h 0 x0 (1 + pyInt ((t1 - t0) / h)).toNat)

/-- State vector `(S, E, I, R)` of the SEIR model. -/
abbrev Vec4 := ℚ × ℚ × ℚ × ℚ

/-- Embedding of `SEIR_model(beta, alpha, gamma)`: returns the derivative
function `f(t, x)` for the four compartments, with `x = (S, E, I, R)`. -/
def SEIR_model (beta alpha gamma : ℚ) : ℚ → Vec4 → Vec4 :=
  fun _ x =>
    (-beta * x.1 * x.2.2.1,
     beta * x.1 * x.2.2.1 - alpha * x.2.1,
     alpha * x.2.1 - gamma * x.2.2.1,
     gamma * x.2.2.1)

/-- Embedding of `SEIR_simulation(beta, alpha, gamma, E0, I0, days, step)`:
builds `S0 = 1 - E0 - I0`, `x0 = (S0, E0, I0, 0)`, integrates from `0` to
`days`, and transposes the trajectory (`zip` then `.T` in the source) into
the time sequence and one sequence per compartment. The source gives `step`
the default value `0.1`; here it is always passed explicitly. -/
def SEIR_simulation (beta alpha gamma E0 I0 days step : ℚ) :
    Option (List ℚ × (List ℚ × List ℚ × List ℚ × List ℚ)) :=
  let S0 := 1 - E0 - I0
  let x0 : Vec4 := (S0, E0, I0, 0)
  let f := SEIR_model beta alpha gamma
  (euler f 0 x0 days step).map fun result =>
    (result.map Prod.fst,
      (result.map fun p => p.2.1, result.map fun p => p.2.2.1,
       result.map fun p => p.2.2.2.1, result.map fun p => p.2.2.2.2))

/-- The ideal explicit Euler state sequence, following the update rule the
spec states: `x_0 = x0` and `x_{k+1} = x_k + h * f(t0 + k * h, x_k)`. The
states stored by `euler` follow exactly this recurrence. -/
def eulerState {α : Type} [Add α] [SMul ℚ α] (f : ℚ → α → α) (t0 h : ℚ)
    (x0 : α) : ℕ → α
  | 0 => x0
  | k + 1 =>
    eulerState f t0 h x0 k + h • f (t0 + (k : ℚ) * h) (eulerState f t0 h x0 k)

/-! ### Structural lemmas about the integrator -/

/-- Closed form of the loop entries: starting iteration `k` in the state the
ideal Euler sequence reaches after `k` updates, iteration `k + i` appends the
pair `(t0 + (k+i)·h, x_{k+i+1})`: the time set at the top of the iteration is
paired with the state produced by one more update. -/
lemma eulerAux_eq_map {α : Type} [Add α] [SMul ℚ α] (f : ℚ → α → α) (t0 h : ℚ)
    (x0 : α) :
    ∀ (n k : ℕ), eulerAux f t0 h k (eulerState f t0 h x0 k) n =
      (List.range n).map
        (fun i => (t0 + ((k + i : ℕ) : ℚ) * h, eulerState f t0 h x0 (k + i + 1))) := by
  intro n
  induction n with
  | zero => intro k; simp [eulerAux]
  | succ n ih =>
    intro k
    simp only [eulerAux]
    have hx1 : eulerState f t0 h x0 k + h • f (t0 + (k : ℚ) * h) (eulerState f t0 h x0 k)
        = eulerState f t0 h x0 (k + 1) := rfl
    rw [hx1, ih (k + 1), List.range_succ_eq_map, List.map_cons, List.map_map]
    refine congrArg₂ List.cons (by simp) (List.map_congr_left fun i _ => ?_)
    have e : k + 1 + i = k + (i + 1) := by omega
    simp only [Function.comp_apply, Nat.succ_eq_add_one, e]

/-- The loop of `euler`, started at iteration `0` from `x0`, appends at
iteration `i` the pair `(t0 + i·h, x_{i+1})` of the ideal Euler sequence. -/
lemma eulerAux_zero {α : Type} [Add α] [SMul ℚ α] (f : ℚ → α → α) (t0 h : ℚ)
    (x0 : α) (n : ℕ) :
    eulerAux f t0 h 0 x0 n =
      (List.range n).map
        (fun i : ℕ => (t0 + (i : ℚ) * h, eulerState f t0 h x0 (i + 1))) := by
  have h0 := eulerAux_eq_map f t0 h x0 n 0
  simp only [Nat.zero_add] at h0
  exact h0

/-- Closed form of the whole trajectory returned by `euler` for a nonzero
step: the seed pair followed by the loop entries. -/
lemma euler_eq {α : Type} [Add α] [SMul ℚ α] (f : ℚ → α → α) (t0 : ℚ) (x0 : α)
    (t1 h : ℚ) (hh : h ≠ 0) :
    euler f t0 x0 t1 h = some ((t0, x0) ::
      (List.range (1 + pyInt ((t1 - t0) / h)).toNat).map
        (fun i : ℕ => (t0 + (i : ℚ) * h, eulerState f t0 h x0 (i + 1)))) := by
  rw [euler, if_neg hh, eulerAux_zero]

/-- Reading an in-range position of a mapped range list. -/
lemma getD_map_range {β : Type} (g : ℕ → β) (n j : ℕ) (d : β) (hj : j < n) :
    ((List.range n).map g).getD j d = g j := by
  have hlen : j < ((List.range n).map g).length := by simpa
  rw [List.getD_eq_getElem _ _ hlen, List.getElem_map, List.getElem_range]

/-- Every state stored by the loop satisfies any property preserved by the
update `x ↦ x + h • f t x`, provided the entry state does. -/
lemma eulerAux_invariant {α : Type} [Add α] [SMul ℚ α] (f : ℚ → α → α)
    (t0 h : ℚ) (P : α → Prop) (hstep : ∀ t x, P x → P (x + h • f t x)) :
    ∀ (n k : ℕ) (x : α), P x → ∀ p ∈ eulerAux f t0 h k x n, P p.2 := by
  intro n
  induction n with
  | zero => intro k x hx p hp; simp [eulerAux] at hp
  | succ n ih =>
    intro k x hx p hp
    simp only [eulerAux, List.mem_cons] at hp
    rcases hp with rfl | hp
    · exact hstep _ _ hx
    · exact ih (k + 1) _ (hstep _ _ hx) p hp

/-- For a nonnegative quotient, the Python truncation agrees with the floor. -/
lemma pyInt_of_nonneg {q : ℚ} (hq : 0 ≤ q) : pyInt q = ⌊q⌋ := if_pos hq

/-- A successful run of `euler` is exactly the closed-form trajectory. -/
lemma euler_some_eq {α : Type} [Add α] [SMul ℚ α] {f : ℚ → α → α} {t0 : ℚ}
    {x0 : α} {t1 h : ℚ} (hh : h ≠ 0) {traj : List (ℚ × α)}
    (ht : euler f t0 x0 t1 h = some traj) :
    traj = (t0, x0) ::
      (List.range (1 + pyInt ((t1 - t0) / h)).toNat).map
        (fun i : ℕ => (t0 + (i : ℚ) * h, eulerState f t0 h x0 (i + 1))) := by
  rw [euler_eq f t0 x0 t1 h hh] at ht
  exact (Option.some_inj.mp ht).symm

/-- A run of `euler` only succeeds when the step is nonzero. -/
lemma euler_step_ne_zero {α : Type} [Add α] [SMul ℚ α] {f : ℚ → α → α}
    {t0 : ℚ} {x0 : α} {t1 h : ℚ} {traj : List (ℚ × α)}
    (ht : euler f t0 x0 t1 h = some traj) : h ≠ 0 := by
  intro h0
  subst h0
  simp [euler] at ht

/-- Reading an in-range position of a mapped list through any defaults. -/
lemma getD_map {β γ : Type} (l : List β) (g : β → γ) (k : ℕ)
    (hk : k < l.length) (d : γ) (d' : β) :
    (l.map g).getD k d = g (l.getD k d') := by
  rw [List.getD_eq_getElem _ _ (by simpa), List.getD_eq_getElem _ _ hk,
    List.getElem_map]

/-- Every state of a successful `euler` trajectory satisfies any property
preserved by the update and holding at the seed. -/
lemma euler_invariant {α : Type} [Add α] [SMul ℚ α] {f : ℚ → α → α} {t0 : ℚ}
    {x0 : α} {t1 h : ℚ} (P : α → Prop)
    (hstep : ∀ t x, P x → P (x + h • f t x)) (hx0 : P x0)
    {traj : List (ℚ × α)} (ht : euler f t0 x0 t1 h = some traj) :
    ∀ p ∈ traj, P p.2 := by
  have hh : h ≠ 0 := euler_step_ne_zero ht
  rw [euler, if_neg hh, Option.some_inj] at ht
  subst ht
  intro p hp
  rcases List.mem_cons.mp hp with rfl | hp
  · exact hx0
  · exact eulerAux_invariant f t0 h P hstep _ 0 x0 hx0 p hp

/-! ### Claims -/

/-- C6: for every parameter triple `(beta, alpha, gamma)` and every input
state, the four components of the derivative returned by `SEIR_model` sum
to exactly zero in exact arithmetic. -/
theorem C6_derivative_sum_zero (beta alpha gamma t : ℚ) (x : Vec4) :
    (SEIR_model beta alpha gamma t x).1 + (SEIR_model beta alpha gamma t x).2.1 +
      (SEIR_model beta alpha gamma t x).2.2.1 +
      (SEIR_model beta alpha gamma t x).2.2.2 = 0 := by
  simp only [SEIR_model]
  ring

/-- C2: for every valid parameter set and every index of the trajectory
produced by `SEIR_simulation`, the compartment values satisfy
`S_k + E_k + I_k + R_k = 1` exactly, in exact arithmetic. -/
theorem C2_conservation (beta alpha gamma E0 I0 days step : ℚ)
    (hbeta : 0 < beta) (halpha : 0 < alpha) (hgamma : 0 < gamma)
    (hE0 : 0 ≤ E0) (hI0 : 0 ≤ I0) (hEI : E0 + I0 ≤ 1)
    (t S E I R : List ℚ)
    (hsim : SEIR_simulation beta alpha gamma E0 I0 days step = some (t, (S, E, I, R)))
    (k : ℕ) (hk : k < t.length) :
    S.getD k 0 + E.getD k 0 + I.getD k 0 + R.getD k 0 = 1 := by
  simp only [SEIR_simulation] at hsim
  obtain ⟨traj, htraj, hres⟩ := Option.map_eq_some'.mp hsim
  simp only [Prod.mk.injEq] at hres
  obtain ⟨ht, hS, hE, hI, hR⟩ := hres
  subst ht hS hE hI hR
  have hsum : ∀ p ∈ traj, p.2.1 + p.2.2.1 + p.2.2.2.1 + p.2.2.2.2 = 1 := by
    refine euler_invariant (fun x => x.1 + x.2.1 + x.2.2.1 + x.2.2.2 = 1) ?_ ?_ htraj
    · rintro u ⟨a, b, c, e⟩ hx
      simp only [SEIR_model, Prod.mk_add_mk, Prod.smul_mk, smul_eq_mul] at *
      linear_combination hx
    · show 1 - E0 - I0 + E0 + I0 + 0 = 1
      ring
  have hk' : k < traj.length := by simpa using hk
  rw [getD_map traj _ k hk' 0 (0, (0, 0, 0, 0)),
    getD_map traj _ k hk' 0 (0, (0, 0, 0, 0)),
    getD_map traj _ k hk' 0 (0, (0, 0, 0, 0)),
    getD_map traj _ k hk' 0 (0, (0, 0, 0, 0)),
    List.getD_eq_getElem _ _ hk']
  exact hsum _ (List.getElem_mem hk')

/-- Witness for C2 at `beta = alpha = gamma = 1`, `E0 = I0 = 0`, `days = 1`,
`step = 1`, index `k = 0`. -/
theorem C2_conservation_witness :
    (0:ℚ) < 1 ∧ (0:ℚ) ≤ 0 ∧ (0:ℚ) + 0 ≤ 1 ∧
    SEIR_simulation 1 1 1 0 0 1 1 =
      some ([0, 0, 1], ([1, 1, 1], [0, 0, 0], [0, 0, 0], [0, 0, 0])) ∧
    [(1:ℚ), 1, 1].getD 0 0 + [(0:ℚ), 0, 0].getD 0 0 + [(0:ℚ), 0, 0].getD 0 0 +
      [(0:ℚ), 0, 0].getD 0 0 = 1 := by
  have hsim : SEIR_simulation 1 1 1 0 0 1 1 =
      some ([0, 0, 1], ([1, 1, 1], [0, 0, 0], [0, 0, 0], [0, 0, 0])) := by
    norm_num [SEIR_simulation, euler, eulerAux, pyInt, SEIR_model, Prod.smul_mk,
      Prod.mk_add_mk, smul_eq_mul]
  refine ⟨by norm_num, le_refl 0, by norm_num, hsim, ?_⟩
  exact C2_conservation 1 1 1 0 0 1 1 (by norm_num) (by norm_num) (by norm_num)
    (le_refl 0) (le_refl 0) (by norm_num) _ _ _ _ _ hsim 0 (by norm_num)

/-- C9: with `beta = alpha = gamma = 0` the derivative vanishes, so every
state in the trajectory equals the initial state. -/
theorem C9_zero_rates_fixed_point (t0 t1 h : ℚ) (x0 : Vec4) (hh : h ≠ 0)
    (traj : List (ℚ × Vec4))
    (ht : euler (SEIR_model 0 0 0) t0 x0 t1 h = some traj)
    (p : ℚ × Vec4) (hp : p ∈ traj) : p.2 = x0 := by
  refine euler_invariant (fun x => x = x0) ?_ rfl ht p hp
  rintro u x hx
  subst hx
  obtain ⟨a, b, c, e⟩ := x
  norm_num [SEIR_model, Prod.mk_add_mk, Prod.smul_mk, smul_eq_mul]

/-- Witness for C9 at `t0 = 0`, `t1 = 2`, `h = 1`,
`x0 = (1/2, 1/4, 1/8, 1/8)`, third trajectory entry. -/
theorem C9_zero_rates_fixed_point_witness :
    (1:ℚ) ≠ 0 ∧
    euler (SEIR_model 0 0 0) 0 (((1:ℚ)/2, (1:ℚ)/4, (1:ℚ)/8, (1:ℚ)/8) : Vec4) 2 1 =
      some [(0, (1/2, 1/4, 1/8, 1/8)), (0, (1/2, 1/4, 1/8, 1/8)),
            (1, (1/2, 1/4, 1/8, 1/8)), (2, (1/2, 1/4, 1/8, 1/8))] ∧
    ((1:ℚ), (((1:ℚ)/2, (1:ℚ)/4, (1:ℚ)/8, (1:ℚ)/8) : Vec4)).2 =
      (((1:ℚ)/2, (1:ℚ)/4, (1:ℚ)/8, (1:ℚ)/8) : Vec4) := by
  have ht : euler (SEIR_model 0 0 0) 0
      (((1:ℚ)/2, (1:ℚ)/4, (1:ℚ)/8, (1:ℚ)/8) : Vec4) 2 1 =
      some [(0, (1/2, 1/4, 1/8, 1/8)), (0, (1/2, 1/4, 1/8, 1/8)),
            (1, (1/2, 1/4, 1/8, 1/8)), (2, (1/2, 1/4, 1/8, 1/8))] := by
    norm_num [euler, eulerAux, pyInt, SEIR_model, Prod.smul_mk, Prod.mk_add_mk,
      smul_eq_mul]
  refine ⟨by norm_num, ht, ?_⟩
  exact C9_zero_rates_fixed_point 0 2 1 _ (by norm_num) _ ht _ (by simp)

/-- C3: for a positive horizon and step, the trajectory returned by
`euler` from `t0 = 0` has exactly `2 + ⌊t1 / h⌋` entries. -/
theorem C3_trajectory_length {α : Type} [Add α] [SMul ℚ α] (f : ℚ → α → α)
    (x0 : α) (t1 h : ℚ) (ht1 : 0 < t1) (hh : 0 < h)
    (traj : List (ℚ × α)) (ht : euler f 0 x0 t1 h = some traj) :
    (traj.length : ℤ) = 2 + ⌊t1 / h⌋ := by
  rw [euler_some_eq (ne_of_gt hh) ht]
  simp only [List.length_cons, List.length_map, List.length_range, sub_zero]
  have hq : (0:ℚ) ≤ t1 / h := div_nonneg ht1.le hh.le
  rw [pyInt_of_nonneg hq]
  have hfl : 0 ≤ ⌊t1 / h⌋ := Int.floor_nonneg.mpr hq
  push_cast [Int.toNat_of_nonneg (by omega : (0:ℤ) ≤ 1 + ⌊t1 / h⌋)]
  ring

/-- Witness for C3 at `t1 = 10`, `h = 3`: five entries, `2 + ⌊10/3⌋ = 5`. -/
theorem C3_trajectory_length_witness :
    (0:ℚ) < 10 ∧ (0:ℚ) < 3 ∧
    euler (fun _ _ => (0:ℚ)) 0 0 10 3 =
      some [(0, 0), (0, 0), (3, 0), (6, 0), (9, 0)] ∧
    (([((0:ℚ), (0:ℚ)), (0, 0), (3, 0), (6, 0), (9, 0)]).length : ℤ) =
      2 + ⌊(10:ℚ) / 3⌋ := by
  have ht : euler (fun _ _ => (0:ℚ)) 0 0 10 3 =
      some [(0, 0), (0, 0), (3, 0), (6, 0), (9, 0)] := by
    norm_num [euler, eulerAux, pyInt, smul_eq_mul]
  exact ⟨by norm_num, by norm_num, ht,
    C3_trajectory_length _ _ _ _ (by norm_num) (by norm_num) _ ht⟩

/-- The first entry of a successful `euler` trajectory is the seed pair. -/
lemma euler_getD_zero {α : Type} [Add α] [SMul ℚ α] {f : ℚ → α → α} {t0 : ℚ}
    {x0 : α} {t1 h : ℚ} (hh : h ≠ 0) {traj : List (ℚ × α)}
    (ht : euler f t0 x0 t1 h = some traj) (d : ℚ × α) :
    traj.getD 0 d = (t0, x0) := by
  obtain rfl := euler_some_eq hh ht
  rfl

/-- Entry `k + 1` of a successful `euler` trajectory pairs grid time
`t0 + k·h` with the state after `k + 1` Euler updates. -/
lemma euler_getD_succ {α : Type} [Add α] [SMul ℚ α] {f : ℚ → α → α} {t0 : ℚ}
    {x0 : α} {t1 h : ℚ} (hh : h ≠ 0) {traj : List (ℚ × α)}
    (ht : euler f t0 x0 t1 h = some traj) (d : ℚ × α) (k : ℕ)
    (hk : k + 1 < traj.length) :
    traj.getD (k + 1) d = (t0 + (k : ℚ) * h, eulerState f t0 h x0 (k + 1)) := by
  obtain rfl := euler_some_eq hh ht
  simp only [List.length_cons, List.length_map, List.length_range] at hk
  rw [List.getD_cons_succ, getD_map_range _ _ _ _ (by omega)]

/-- Length of a successful `euler` trajectory. -/
lemma euler_length {α : Type} [Add α] [SMul ℚ α] {f : ℚ → α → α} {t0 : ℚ}
    {x0 : α} {t1 h : ℚ} (hh : h ≠ 0) {traj : List (ℚ × α)}
    (ht : euler f t0 x0 t1 h = some traj) :
    traj.length = (1 + pyInt ((t1 - t0) / h)).toNat + 1 := by
  rw [euler_some_eq hh ht]
  simp

/-- With a positive step and `t0 ≤ t1` the loop runs at least once. -/
lemma euler_one_lt_length {α : Type} [Add α] [SMul ℚ α] {f : ℚ → α → α}
    {t0 : ℚ} {x0 : α} {t1 h : ℚ} (hh : 0 < h) (hle : t0 ≤ t1)
    {traj : List (ℚ × α)} (ht : euler f t0 x0 t1 h = some traj) :
    1 < traj.length := by
  have hq : (0:ℚ) ≤ (t1 - t0) / h := div_nonneg (by linarith) hh.le
  have hfl : 0 ≤ ⌊(t1 - t0) / h⌋ := Int.floor_nonneg.mpr hq
  rw [euler_length (ne_of_gt hh) ht, pyInt_of_nonneg hq]
  omega

/-- The time of the last trajectory entry is `t0 + ⌊(t1 - t0)/h⌋·h`. -/
lemma euler_last_time {α : Type} [Add α] [SMul ℚ α] {f : ℚ → α → α} {t0 : ℚ}
    {x0 : α} {t1 h : ℚ} (hh : 0 < h) (hle : t0 ≤ t1) {traj : List (ℚ × α)}
    (ht : euler f t0 x0 t1 h = some traj) (d : ℚ × α) :
    (traj.getD (traj.length - 1) d).1 = t0 + (⌊(t1 - t0) / h⌋ : ℚ) * h := by
  have hq : (0:ℚ) ≤ (t1 - t0) / h := div_nonneg (by linarith) hh.le
  have hfl : 0 ≤ ⌊(t1 - t0) / h⌋ := Int.floor_nonneg.mpr hq
  have hlen := euler_length (ne_of_gt hh) ht
  rw [pyInt_of_nonneg hq] at hlen
  have hn : (1 + ⌊(t1 - t0) / h⌋).toNat = ⌊(t1 - t0) / h⌋.toNat + 1 := by omega
  rw [hlen, hn, Nat.add_sub_cancel,
    euler_getD_succ (ne_of_gt hh) ht d ⌊(t1 - t0) / h⌋.toNat (by omega)]
  have hc : ((⌊(t1 - t0) / h⌋.toNat : ℕ) : ℚ) = ((⌊(t1 - t0) / h⌋ : ℤ) : ℚ) := by
    exact_mod_cast Int.toNat_of_nonneg hfl
  simp [hc]

/-- The grid never passes the horizon: `t0 + ⌊(t1 - t0)/h⌋·h ≤ t1`. -/
lemma floor_grid_le {t0 t1 h : ℚ} (hh : 0 < h) (hle : t0 ≤ t1) :
    t0 + (⌊(t1 - t0) / h⌋ : ℚ) * h ≤ t1 := by
  have h1 : (⌊(t1 - t0) / h⌋ : ℚ) ≤ (t1 - t0) / h := Int.floor_le _
  have h2 : (⌊(t1 - t0) / h⌋ : ℚ) * h ≤ (t1 - t0) / h * h :=
    mul_le_mul_of_nonneg_right h1 hh.le
  rw [div_mul_cancel₀ _ (ne_of_gt hh)] at h2
  linarith

/-- C1 (amended): the trajectory starts with `(t0, x0)` and its states obey
the Euler update rule `x_{k+1} = x_k + h·f(t0 + k·h, x_k)`, but entry `k+1`
pairs the state `x_{k+1}` with the grid time `t0 + k·h` of the update that
produced it, not with `t0 + (k+1)·h`. -/
theorem C1_pairing {α : Type} [Add α] [SMul ℚ α] (f : ℚ → α → α) (t0 : ℚ)
    (x0 : α) (t1 h : ℚ) (hh : h ≠ 0) (traj : List (ℚ × α))
    (ht : euler f t0 x0 t1 h = some traj) (d : ℚ × α) (k : ℕ)
    (hk : k + 1 < traj.length) :
    traj.getD 0 d = (t0, x0) ∧
    traj.getD (k + 1) d = (t0 + (k : ℚ) * h, eulerState f t0 h x0 (k + 1)) :=
  ⟨euler_getD_zero hh ht d, euler_getD_succ hh ht d k hk⟩

/-- C1 fails as stated: in `euler(f, 0, 0, 1, 1)` with `f = 1` the pair at
index 1 is `(0, 1)`, whose time `0` is not `t_1 = 0 + 1·1`. -/
theorem C1_pairing_counterexample :
    euler (fun _ _ => (1:ℚ)) 0 0 1 1 = some [(0, 0), (0, 1), (1, 2)] ∧
    ([((0:ℚ), (0:ℚ)), (0, 1), (1, 2)].getD 1 (0, 0)).1 ≠ 0 + 1 * 1 := by
  constructor
  · norm_num [euler, eulerAux, pyInt, smul_eq_mul]
  · norm_num

/-- Witness for C1 at `f = 1`, `t0 = 0`, `x0 = 0`, `t1 = 1`, `h = 1`,
`k = 1`. -/
theorem C1_pairing_witness :
    (1:ℚ) ≠ 0 ∧
    euler (fun _ _ => (1:ℚ)) 0 0 1 1 = some [(0, 0), (0, 1), (1, 2)] ∧
    1 + 1 < ([((0:ℚ), (0:ℚ)), (0, 1), (1, 2)]).length ∧
    ([((0:ℚ), (0:ℚ)), (0, 1), (1, 2)].getD 0 (0, 0) = (0, 0) ∧
      [((0:ℚ), (0:ℚ)), (0, 1), (1, 2)].getD (1 + 1) (0, 0) =
        (0 + ((1:ℕ) : ℚ) * 1, eulerState (fun _ _ => (1:ℚ)) 0 1 0 (1 + 1))) := by
  have ht : euler (fun _ _ => (1:ℚ)) 0 0 1 1 = some [(0, 0), (0, 1), (1, 2)] := by
    norm_num [euler, eulerAux, pyInt, smul_eq_mul]
  exact ⟨by norm_num, ht, by norm_num,
    C1_pairing (fun _ _ => (1:ℚ)) 0 0 1 1 (by norm_num) _ ht (0, 0) 1 (by norm_num)⟩

/-- C4 (amended): with `t0 ≤ t1` the final emitted time is
`t0 + ⌊(t1 - t0)/h⌋·h`, which never exceeds `t1` (it stops short of `t1` by
less than `h` when `(t1 - t0)/h` is not an integer); for `t0 = 0`, `t1 = 10`,
`h = 3` the emitted times are `0, 0, 3, 6, 9` and the final time is `9`. -/
theorem C4_final_time {α : Type} [Add α] [SMul ℚ α] (f : ℚ → α → α) (t0 : ℚ)
    (x0 : α) (t1 h : ℚ) (hh : 0 < h) (hle : t0 ≤ t1) (traj : List (ℚ × α))
    (ht : euler f t0 x0 t1 h = some traj) (d : ℚ × α) :
    (traj.getD (traj.length - 1) d).1 = t0 + (⌊(t1 - t0) / h⌋ : ℚ) * h ∧
    t0 + (⌊(t1 - t0) / h⌋ : ℚ) * h ≤ t1 :=
  ⟨euler_last_time hh hle ht d, floor_grid_le hh hle⟩

/-- C4 fails as stated: for `t0 = 0`, `t1 = 10`, `h = 3` the emitted times
are `0, 0, 3, 6, 9`; the final time is `9`, which is strictly before
`t1 = 10` and is not the overshoot value `12`. -/
theorem C4_final_time_counterexample :
    euler (fun _ _ => (0:ℚ)) 0 0 10 3 =
      some [(0, 0), (0, 0), (3, 0), (6, 0), (9, 0)] ∧
    (([((0:ℚ), (0:ℚ)), (0, 0), (3, 0), (6, 0), (9, 0)]).getD (5 - 1) (0, 0)).1 = 9 ∧
    ¬ ((10:ℚ) ≤ 9) ∧ (9:ℚ) ≠ 12 := by
  refine ⟨?_, by norm_num, by norm_num, by norm_num⟩
  norm_num [euler, eulerAux, pyInt, smul_eq_mul]

/-- Witness for C4 at `t0 = 0`, `t1 = 10`, `h = 3`. -/
theorem C4_final_time_witness :
    (0:ℚ) < 3 ∧ (0:ℚ) ≤ 10 ∧
    euler (fun _ _ => (0:ℚ)) 0 0 10 3 =
      some [(0, 0), (0, 0), (3, 0), (6, 0), (9, 0)] ∧
    ((([((0:ℚ), (0:ℚ)), (0, 0), (3, 0), (6, 0), (9, 0)]).getD
        (([((0:ℚ), (0:ℚ)), (0, 0), (3, 0), (6, 0), (9, 0)]).length - 1) (0, 0)).1 =
      0 + (⌊((10:ℚ) - 0) / 3⌋ : ℚ) * 3 ∧
      0 + (⌊((10:ℚ) - 0) / 3⌋ : ℚ) * 3 ≤ 10) := by
  have ht : euler (fun _ _ => (0:ℚ)) 0 0 10 3 =
      some [(0, 0), (0, 0), (3, 0), (6, 0), (9, 0)] := by
    norm_num [euler, eulerAux, pyInt, smul_eq_mul]
  exact ⟨by norm_num, by norm_num, ht,
    C4_final_time _ _ _ _ _ (by norm_num) (by norm_num) _ ht (0, 0)⟩

/-- C5 (amended): the spacing `time[k+1] - time[k] = h` holds for all
`k ≥ 1`, but not at `k = 0`: the first two entries carry the same time
`t0`. -/
theorem C5_time_spacing {α : Type} [Add α] [SMul ℚ α] (f : ℚ → α → α)
    (t0 : ℚ) (x0 : α) (t1 h : ℚ) (hh : 0 < h) (hle : t0 ≤ t1)
    (traj : List (ℚ × α)) (ht : euler f t0 x0 t1 h = some traj) (d : ℚ × α)
    (k : ℕ) (hk1 : 1 ≤ k) (hk : k + 1 < traj.length) :
    (traj.getD 1 d).1 = (traj.getD 0 d).1 ∧
    (traj.getD (k + 1) d).1 - (traj.getD k d).1 = h := by
  have hh0 : h ≠ 0 := ne_of_gt hh
  constructor
  · rw [euler_getD_zero hh0 ht d,
      show (1:ℕ) = 0 + 1 from rfl,
      euler_getD_succ hh0 ht d 0 (by simpa using euler_one_lt_length hh hle ht)]
    norm_num
  · obtain ⟨j, rfl⟩ : ∃ j, k = j + 1 := ⟨k - 1, by omega⟩
    rw [euler_getD_succ hh0 ht d (j + 1) hk,
      euler_getD_succ hh0 ht d j (by omega)]
    push_cast
    ring

/-- C5 fails as stated: in `euler(f, 0, 0, 4, 2)` the first two emitted
times are both `0`, so `time[1] - time[0] = 0 ≠ h = 2`. -/
theorem C5_time_spacing_counterexample :
    euler (fun _ _ => (0:ℚ)) 0 0 4 2 = some [(0, 0), (0, 0), (2, 0), (4, 0)] ∧
    (([((0:ℚ), (0:ℚ)), (0, 0), (2, 0), (4, 0)]).getD 1 (0, 0)).1 -
      (([((0:ℚ), (0:ℚ)), (0, 0), (2, 0), (4, 0)]).getD 0 (0, 0)).1 ≠ 2 := by
  constructor
  · norm_num [euler, eulerAux, pyInt, smul_eq_mul]
  · norm_num

/-- Witness for C5 at `t0 = 0`, `t1 = 4`, `h = 2`, `k = 1`. -/
theorem C5_time_spacing_witness :
    (0:ℚ) < 2 ∧ (0:ℚ) ≤ 4 ∧
    euler (fun _ _ => (0:ℚ)) 0 0 4 2 = some [(0, 0), (0, 0), (2, 0), (4, 0)] ∧
    1 ≤ 1 ∧ 1 + 1 < ([((0:ℚ), (0:ℚ)), (0, 0), (2, 0), (4, 0)]).length ∧
    ((([((0:ℚ), (0:ℚ)), (0, 0), (2, 0), (4, 0)]).getD 1 (0, 0)).1 =
        (([((0:ℚ), (0:ℚ)), (0, 0), (2, 0), (4, 0)]).getD 0 (0, 0)).1 ∧
      (([((0:ℚ), (0:ℚ)), (0, 0), (2, 0), (4, 0)]).getD (1 + 1) (0, 0)).1 -
        (([((0:ℚ), (0:ℚ)), (0, 0), (2, 0), (4, 0)]).getD 1 (0, 0)).1 = 2) := by
  have ht : euler (fun _ _ => (0:ℚ)) 0 0 4 2 =
      some [(0, 0), (0, 0), (2, 0), (4, 0)] := by
    norm_num [euler, eulerAux, pyInt, smul_eq_mul]
  exact ⟨by norm_num, by norm_num, ht, le_refl 1, by norm_num,
    C5_time_spacing _ _ _ _ _ (by norm_num) (by norm_num) _ ht (0, 0) 1
      (le_refl 1) (by norm_num)⟩

/-- C10 (amended, restricted to `t0 ≤ t1`): the pair appended at loop
iteration `k` pairs the time `t0 + k·h` with the state produced by `k + 1`
Euler updates; consequently the first two entries both carry time `t0`, and
the time of the last entry is `t0 + ⌊(t1 - t0)/h⌋·h`, which never exceeds
`t1`. -/
theorem C10_loop_pairing {α : Type} [Add α] [SMul ℚ α] (f : ℚ → α → α)
    (t0 : ℚ) (x0 : α) (t1 h : ℚ) (hh : 0 < h) (hle : t0 ≤ t1)
    (traj : List (ℚ × α)) (ht : euler f t0 x0 t1 h = some traj) (d : ℚ × α)
    (k : ℕ) (hk : k + 1 < traj.length) :
    traj.getD (k + 1) d = (t0 + (k : ℚ) * h, eulerState f t0 h x0 (k + 1)) ∧
    (traj.getD 0 d).1 = t0 ∧ (traj.getD 1 d).1 = t0 ∧
    (traj.getD (traj.length - 1) d).1 = t0 + (⌊(t1 - t0) / h⌋ : ℚ) * h ∧
    t0 + (⌊(t1 - t0) / h⌋ : ℚ) * h ≤ t1 := by
  have hh0 : h ≠ 0 := ne_of_gt hh
  refine ⟨euler_getD_succ hh0 ht d k hk, ?_, ?_,
    euler_last_time hh hle ht d, floor_grid_le hh hle⟩
  · rw [euler_getD_zero hh0 ht d]
  · rw [show (1:ℕ) = 0 + 1 from rfl,
      euler_getD_succ hh0 ht d 0 (by simpa using euler_one_lt_length hh hle ht)]
    norm_num

/-- C10 fails as stated for `t1 < t0`: `euler(f, 0, 0, -2, 1)` returns the
single pair `(0, 0)`, so there is no second entry, and the last time `0`
differs from `t0 + ⌊(t1 - t0)/h⌋·h = -2`. -/
theorem C10_loop_pairing_counterexample :
    euler (fun _ _ => (0:ℚ)) 0 0 (-2) 1 = some [(0, 0)] ∧
    ([((0:ℚ), (0:ℚ))]).length = 1 ∧
    (([((0:ℚ), (0:ℚ))]).getD (1 - 1) (0, 0)).1 ≠ 0 + (⌊((-2:ℚ) - 0) / 1⌋ : ℚ) * 1 := by
  refine ⟨?_, rfl, ?_⟩
  · norm_num [euler, eulerAux, pyInt, smul_eq_mul]
  · norm_num

/-- Witness for C10 at `f = 1`, `t0 = 0`, `x0 = 0`, `t1 = 1`, `h = 1`,
`k = 0`. -/
theorem C10_loop_pairing_witness :
    (0:ℚ) < 1 ∧ (0:ℚ) ≤ 1 ∧
    euler (fun _ _ => (1:ℚ)) 0 0 1 1 = some [(0, 0), (0, 1), (1, 2)] ∧
    0 + 1 < ([((0:ℚ), (0:ℚ)), (0, 1), (1, 2)]).length ∧
    ([((0:ℚ), (0:ℚ)), (0, 1), (1, 2)].getD (0 + 1) (0, 0) =
        (0 + ((0:ℕ) : ℚ) * 1, eulerState (fun _ _ => (1:ℚ)) 0 1 0 (0 + 1)) ∧
      (([((0:ℚ), (0:ℚ)), (0, 1), (1, 2)]).getD 0 (0, 0)).1 = 0 ∧
      (([((0:ℚ), (0:ℚ)), (0, 1), (1, 2)]).getD 1 (0, 0)).1 = 0 ∧
      (([((0:ℚ), (0:ℚ)), (0, 1), (1, 2)]).getD
          (([((0:ℚ), (0:ℚ)), (0, 1), (1, 2)]).length - 1) (0, 0)).1 =
        0 + (⌊((1:ℚ) - 0) / 1⌋ : ℚ) * 1 ∧
      0 + (⌊((1:ℚ) - 0) / 1⌋ : ℚ) * 1 ≤ 1) := by
  have ht : euler (fun _ _ => (1:ℚ)) 0 0 1 1 = some [(0, 0), (0, 1), (1, 2)] := by
    norm_num [euler, eulerAux, pyInt, smul_eq_mul]
  exact ⟨by norm_num, by norm_num, ht, by norm_num,
    C10_loop_pairing (fun _ _ => (1:ℚ)) 0 0 1 1 (by norm_num) (by norm_num)
      _ ht (0, 0) 0 (by norm_num)⟩

/-- C7: `SEIR_simulation` builds `x0 = (1 - E0 - I0, E0, I0, 0)`, runs the
integrator from `0` to `days` with the derivative function of `SEIR_model`,
and returns the time sequence with the four per-compartment sequences
obtained by transposing the trajectory, preserving step order. -/
theorem C7_simulation_structure (beta alpha gamma E0 I0 days step : ℚ)
    (traj : List (ℚ × Vec4))
    (ht : euler (SEIR_model beta alpha gamma) 0 (1 - E0 - I0, E0, I0, 0)
      days step = some traj)
    (t S E I R : List ℚ)
    (hsim : SEIR_simulation beta alpha gamma E0 I0 days step =
      some (t, (S, E, I, R)))
    (k : ℕ) (hk : k < traj.length) (d : ℚ × Vec4) :
    t = traj.map Prod.fst ∧
    S.length = traj.length ∧ E.length = traj.length ∧ I.length = traj.length ∧
    R.length = traj.length ∧
    t.getD k 0 = (traj.getD k d).1 ∧ S.getD k 0 = (traj.getD k d).2.1 ∧
    E.getD k 0 = (traj.getD k d).2.2.1 ∧ I.getD k 0 = (traj.getD k d).2.2.2.1 ∧
    R.getD k 0 = (traj.getD k d).2.2.2.2 ∧
    traj.getD 0 d = (0, (1 - E0 - I0, E0, I0, 0)) := by
  simp only [SEIR_simulation] at hsim
  rw [ht] at hsim
  simp only [Option.map_some', Option.some_inj, Prod.mk.injEq] at hsim
  obtain ⟨h1, h2, h3, h4, h5⟩ := hsim
  subst h1 h2 h3 h4 h5
  refine ⟨rfl, by simp, by simp, by simp, by simp,
    getD_map traj _ k hk 0 d, getD_map traj _ k hk 0 d,
    getD_map traj _ k hk 0 d, getD_map traj _ k hk 0 d,
    getD_map traj _ k hk 0 d, euler_getD_zero (euler_step_ne_zero ht) ht d⟩

/-- Witness for C7 at `beta = alpha = gamma = 1`, `E0 = I0 = 0`, `days = 1`,
`step = 1`, index `k = 0`. -/
theorem C7_simulation_structure_witness :
    euler (SEIR_model 1 1 1) 0 ((1:ℚ) - 0 - 0, (0:ℚ), (0:ℚ), (0:ℚ)) 1 1 =
      some [(0, (1, 0, 0, 0)), (0, (1, 0, 0, 0)), (1, (1, 0, 0, 0))] ∧
    SEIR_simulation 1 1 1 0 0 1 1 =
      some ([0, 0, 1], ([1, 1, 1], [0, 0, 0], [0, 0, 0], [0, 0, 0])) ∧
    0 < ([((0:ℚ), ((1:ℚ), (0:ℚ), (0:ℚ), (0:ℚ))), (0, (1, 0, 0, 0)),
          (1, (1, 0, 0, 0))]).length ∧
    ([(0:ℚ), 0, 1] =
        ([((0:ℚ), ((1:ℚ), (0:ℚ), (0:ℚ), (0:ℚ))), (0, (1, 0, 0, 0)),
          (1, (1, 0, 0, 0))]).map Prod.fst ∧
      [(1:ℚ), 1, 1].length = 3 ∧ [(0:ℚ), 0, 0].length = 3 ∧
      [(0:ℚ), 0, 0].length = 3 ∧ [(0:ℚ), 0, 0].length = 3 ∧
      [(0:ℚ), 0, 1].getD 0 0 = 0 ∧ [(1:ℚ), 1, 1].getD 0 0 = 1 ∧
      [(0:ℚ), 0, 0].getD 0 0 = 0 ∧ [(0:ℚ), 0, 0].getD 0 0 = 0 ∧
      [(0:ℚ), 0, 0].getD 0 0 = 0 ∧
      ([((0:ℚ), ((1:ℚ), (0:ℚ), (0:ℚ), (0:ℚ))), (0, (1, 0, 0, 0)),
          (1, (1, 0, 0, 0))]).getD 0 (0, (0, 0, 0, 0)) =
        (0, ((1:ℚ) - 0 - 0, 0, 0, 0))) := by
  have ht : euler (SEIR_model 1 1 1) 0 ((1:ℚ) - 0 - 0, (0:ℚ), (0:ℚ), (0:ℚ)) 1 1 =
      some [(0, (1, 0, 0, 0)), (0, (1, 0, 0, 0)), (1, (1, 0, 0, 0))] := by
    norm_num [euler, eulerAux, pyInt, SEIR_model, Prod.smul_mk, Prod.mk_add_mk,
      smul_eq_mul]
  have hsim : SEIR_simulation 1 1 1 0 0 1 1 =
      some ([0, 0, 1], ([1, 1, 1], [0, 0, 0], [0, 0, 0], [0, 0, 0])) := by
    norm_num [SEIR_simulation, euler, eulerAux, pyInt, SEIR_model, Prod.smul_mk,
      Prod.mk_add_mk, smul_eq_mul]
  have hmain := C7_simulation_structure 1 1 1 0 0 1 1 _ ht _ _ _ _ _ hsim 0
    (by norm_num) (0, (0, 0, 0, 0))
  exact ⟨ht, hsim, by norm_num, by simpa using hmain⟩

/-- C8 (amended): the simulation entry point performs no precondition
validation. For every parameter set with a nonzero step — including
`E0 + I0 > 1`, negative initial fractions, a negative step, or
`days ≤ 0` — the simulation proceeds and returns a trajectory instead of a
distinct recoverable error value; the only failing input is `step = 0`,
which aborts inside the integrator with a `ZeroDivisionError`. -/
theorem C8_no_validation (beta alpha gamma E0 I0 days step : ℚ)
    (hstep : step ≠ 0) :
    (SEIR_simulation beta alpha gamma E0 I0 days step).isSome = true ∧
    SEIR_simulation beta alpha gamma E0 I0 days 0 = none := by
  constructor
  · simp only [SEIR_simulation]
    rw [euler_eq _ _ _ _ _ hstep]
    rfl
  · simp [SEIR_simulation, euler]

/-- C8 fails as stated: with `E0 = I0 = 1` (so `E0 + I0 = 2 > 1` violates
the precondition), the entry point reports no error value; it builds
`S0 = -1` and proceeds, returning a trajectory whose first `S` value is
`-1`. -/
theorem C8_no_validation_counterexample :
    (1:ℚ) + 1 > 1 ∧
    SEIR_simulation 1 1 1 1 1 1 1 =
      some ([0, 0, 1], ([-1, 0, 0], [1, -1, 0], [1, 1, -1], [0, 1, 2])) := by
  constructor
  · norm_num
  · norm_num [SEIR_simulation, euler, eulerAux, pyInt, SEIR_model, Prod.smul_mk,
      Prod.mk_add_mk, smul_eq_mul]

/-- Witness for C8 at `E0 = I0 = 1`, `days = -5`, `step = -1`: all three
preconditions are violated and the simulation still returns a value. -/
theorem C8_no_validation_witness :
    (-1:ℚ) ≠ 0 ∧
    ((SEIR_simulation 1 1 1 1 1 (-5) (-1)).isSome = true ∧
      SEIR_simulation 1 1 1 1 1 (-5) 0 = none) :=
  ⟨by norm_num, C8_no_validation 1 1 1 1 1 (-5) (-1) (by norm_num)⟩

end SEIR
